import Mathlib

/-!
Shallow embedding of the messenger / threading layer of the
aries-framework-go repository (`pkg/didcomm/messenger/messenger.go`) and of
the DID-resolution retry helper
(`test/bdd/pkg/didexchange/didexchange_sdk_steps.go`), together with proofs
about their behaviour.

A DIDComm message is a dynamic JSON map (`service.DIDCommMsgMap` in Go); we
embed it as an association list from string keys to JSON-like values.  The
persistent store is likewise an association list from string keys to the
decoded `record` payloads (the JSON marshal/unmarshal round-trip of the
`record` struct is the identity on the fields the messenger uses, so we
store records directly).  The Go code mutates the caller's message map in
place and signals failure through an error return; we embed each operation
as a function returning the final message map, the final store, the
dispatched wire call if any, and the error if any.
-/

namespace AriesMessenger

/-- JSON-like dynamic values stored in a `DIDCommMsgMap`: strings, nested
maps, and opaque other values (numbers, arrays, ...) that the messenger
never inspects. -/
inductive Val where
  | str : String → Val
  | vmap : List (String × Val) → Val
  | other : Nat → Val

/-- A DIDComm message map: Go `service.DIDCommMsgMap = map[string]interface{}`. -/
abbrev Msg := List (String × Val)

/-- Association-list lookup (Go map indexing `m[k]`). -/
def getKey {α : Type} : List (String × α) → String → Option α
  | [], _ => none
  | (k', v) :: t, k => if k' = k then some v else getKey t k

/-- Association-list update (Go map assignment `m[k] = v`): replaces the
binding for `k` when present, otherwise appends it. -/
def setKey {α : Type} : List (String × α) → String → α → List (String × α)
  | [], k, v => [(k, v)]
  | (k', v') :: t, k, v => if k' = k then (k, v) :: t else (k', v') :: setKey t k v

/-- Association-list deletion (Go `delete(m, k)`). -/
def delKey {α : Type} : List (String × α) → String → List (String × α)
  | [], _ => []
  | (k', v') :: t, k => if k' = k then delKey t k else (k', v') :: delKey t k

/-- JSON keys used by the messenger (constants in `messenger.go`). -/
def jsonID : String := "@id"

/-- The `~thread` decorator key. -/
def jsonThread : String := "~thread"

/-- The `thid` key inside `~thread`. -/
def jsonThreadID : String := "thid"

/-- The `pthid` key inside `~thread`. -/
def jsonParentThreadID : String := "pthid"

/-- The internal metadata key injected into in-memory messages. -/
def jsonMetadata : String := "_internal_metadata"

/-- Key under which per-thread metadata records are stored:
Go `fmt.Sprintf("metadata_%s", thID)`. -/
def metadataKey (thID : String) : String := "metadata_" ++ thID

/-- The `record` struct of `messenger.go`: payload kept about an inbound
message, plus the metadata variant stored under `metadata_<thid>` keys.
An empty `metadata` list embeds Go's `nil` map (a `nil` map and an absent
key marshal identically under `omitempty`). -/
structure Record where
  myDID : String := ""
  theirDID : String := ""
  threadID : String := ""
  parentThreadID : String := ""
  metadata : List (String × Val) := []

/-- The messenger store: key/value persistence of decoded records. -/
abbrev Store := List (String × Record)

/-- Errors the embedded operations can produce. -/
inductive Err where
  | dataNotFound
  | idAbsent
  | threadIDNotFound
deriving DecidableEq

/-- Modelled from the spec: `service.DIDCommMsgMap.ID()` is not under the
provided sources; per the spec's wire format the message id is the `@id`
entry, and a missing or non-string entry reads as the empty string. -/
def ID (m : Msg) : String :=
  match getKey m jsonID with
  | some (.str s) => s
  | _ => ""

/-- The `thid` string found under the `~thread` decorator, or `""` when the
decorator, the key, or its string value is absent. -/
def thidString (m : Msg) : String :=
  match getKey m jsonThread with
  | some (.vmap t) =>
    match getKey t jsonThreadID with
    | some (.str s) => s
    | _ => ""
  | _ => ""

/-- Modelled from the spec: `service.DIDCommMsgMap.ThreadID()` is not under
the provided sources; per the spec, `thread_id = msg.thread_id || msg.id`
("even if ~thread decorator is absent the message ID should be returned as
a threadID"), failing only when both are empty. -/
def ThreadID (m : Msg) : Except Err String :=
  if thidString m ≠ "" then .ok (thidString m)
  else if ID m ≠ "" then .ok (ID m)
  else .error .threadIDNotFound

/-- Modelled from the spec: `service.DIDCommMsgMap.ParentThreadID()` is not
under the provided sources; per the spec it is the `pthid` entry of the
`~thread` decorator, read as `""` when absent. -/
def ParentThreadID (m : Msg) : String :=
  match getKey m jsonThread with
  | some (.vmap t) =>
    match getKey t jsonParentThreadID with
    | some (.str s) => s
    | _ => ""
  | _ => ""

/-- Modelled from the spec: `service.DIDCommMsgMap.Metadata()` is not under
the provided sources; per the spec it is the map stored under the internal
`_internal_metadata` key, empty when absent. -/
def Metadata (m : Msg) : List (String × Val) :=
  match getKey m jsonMetadata with
  | some (.vmap md) => md
  | _ => []

/-- Destination of a dispatched wire message. -/
inductive Target where
  | toDID (myDID theirDID : String)
  | toDest (sender destination : String)
deriving DecidableEq

/-- A call handed to the outbound dispatcher. -/
structure Dispatch where
  msg : Msg
  target : Target

/-- Result of one messenger operation: the caller's message map after the
call (Go mutates it in place), the store after the call, the dispatcher
call made if any, and the error returned if any. -/
structure OpResult where
  msg : Msg
  store : Store
  dispatched : Option Dispatch
  err : Option Err

/-- `fillIfMissing` of `messenger.go`: if the message id is empty a fresh
UUID is assigned; the nondeterministic `uuid.New().String()` is passed in
as the `fresh` argument. -/
def fillIfMissing (m : Msg) (fresh : String) : Msg :=
  if ID m = "" then setKey m jsonID (.str fresh) else m

/-- `getRecord` of `messenger.go`: store lookup plus unmarshal; a missing
key surfaces as `ErrDataNotFound`. -/
def getRecord (store : Store) (msgID : String) : Except Err Record :=
  match getKey store msgID with
  | some r => .ok r
  | none => .error .dataNotFound

/-- `saveRecord` of `messenger.go`: marshal plus store put. -/
def saveRecord (store : Store) (msgID : String) (rec : Record) : Store :=
  setKey store msgID rec

/-- `saveMetadata` of `messenger.go`: if the message carries metadata,
store it under `metadata_<threadID>`. -/
def saveMetadata (m : Msg) (store : Store) : Except Err Store :=
  match Metadata m with
  | [] => .ok store
  | md =>
    match ThreadID m with
    | .error e => .error e
    | .ok thID => .ok (saveRecord store (metadataKey thID) { metadata := md })

/-- `populateMetadata` of `messenger.go`: merge stored per-thread metadata
into the in-memory message under the internal key. -/
def populateMetadata (thID : String) (m : Msg) (store : Store) : Msg :=
  match getRecord store (metadataKey thID) with
  | .error _ => m
  | .ok rec =>
    match rec.metadata with
    | [] => m
    | md => setKey m jsonMetadata (.vmap md)

/-- `Messenger.HandleInbound` of `messenger.go`. -/
def HandleInbound (m : Msg) (myDID theirDID : String) (store : Store) : OpResult :=
  if ID m = "" then ⟨m, store, none, some .idAbsent⟩
  else
    match ThreadID m with
    | .error e => ⟨m, store, none, some e⟩
    | .ok thID =>
      let m := populateMetadata thID m store
      ⟨m, saveRecord store (ID m)
            { parentThreadID := ParentThreadID m
              myDID := myDID
              theirDID := theirDID
              threadID := thID }, none, none⟩

/-- `Messenger.Send` of `messenger.go`. -/
def Send (m : Msg) (myDID theirDID : String) (store : Store) (fresh : String) : OpResult :=
  let m := fillIfMissing m fresh
  match saveMetadata m store with
  | .error e => ⟨m, store, none, some e⟩
  | .ok store' =>
    let m := setKey m jsonThread (.vmap [(jsonThreadID, .str (ID m))])
    ⟨m, store', some ⟨m, .toDID myDID theirDID⟩, none⟩

/-- `Messenger.SendToDestination` of `messenger.go`. -/
def SendToDestination (m : Msg) (sender destination : String) (store : Store)
    (fresh : String) : OpResult :=
  let m := fillIfMissing m fresh
  match saveMetadata m store with
  | .error e => ⟨m, store, none, some e⟩
  | .ok store' =>
    let m := delKey m jsonThread
    ⟨m, store', some ⟨m, .toDest sender destination⟩, none⟩

/-- The `~thread` decorator built by `Messenger.ReplyTo`: `thid` from the
record's thread id, and `pthid` added exactly when the record's parent
thread id is non-empty. -/
def replyThread (rec : Record) : List (String × Val) :=
  let thread := [(jsonThreadID, Val.str rec.threadID)]
  if rec.parentThreadID ≠ "" then
    setKey thread jsonParentThreadID (.str rec.parentThreadID)
  else thread

/-- `Messenger.ReplyTo` of `messenger.go`. -/
def ReplyTo (msgID : String) (m : Msg) (store : Store) (fresh : String) : OpResult :=
  let m := fillIfMissing m fresh
  match getRecord store msgID with
  | .error e => ⟨m, store, none, some e⟩
  | .ok rec =>
    let m := setKey m jsonThread (.vmap (replyThread rec))
    match saveMetadata m store with
    | .error e => ⟨m, store, none, some e⟩
    | .ok store' => ⟨m, store', some ⟨m, .toDID rec.myDID rec.theirDID⟩, none⟩

/-- `service.NestedReplyOpts`: options for `ReplyToNested`. -/
structure NestedReplyOpts where
  threadID : String := ""
  messageID : String := ""
  myDID : String := ""
  theirDID : String := ""

/-- `Messenger.fillNestedReplyOption` of `messenger.go`: prefill missing
nested reply options from the record identified by `opts.messageID`. -/
def fillNestedReplyOption (opts : NestedReplyOpts) (store : Store) :
    Except Err NestedReplyOpts :=
  if opts.threadID ≠ "" ∧ opts.theirDID ≠ "" ∧ opts.myDID ≠ "" then .ok opts
  else if opts.messageID = "" then .ok opts
  else
    match getRecord store opts.messageID with
    | .error e => .error e
    | .ok rec =>
      .ok { opts with
            threadID := if opts.threadID = "" then rec.threadID else opts.threadID
            theirDID := if opts.theirDID = "" then rec.theirDID else opts.theirDID
            myDID := if opts.myDID = "" then rec.myDID else opts.myDID }

/-- `Messenger.ReplyToNested` of `messenger.go`. -/
def ReplyToNested (m : Msg) (opts : NestedReplyOpts) (store : Store)
    (fresh : String) : OpResult :=
  let m := fillIfMissing m fresh
  match saveMetadata m store with
  | .error e => ⟨m, store, none, some e⟩
  | .ok store' =>
    match fillNestedReplyOption opts store' with
    | .error e => ⟨m, store', none, some e⟩
    | .ok opts' =>
      let m := setKey m jsonThread (.vmap [(jsonParentThreadID, .str opts'.threadID)])
      ⟨m, store', some ⟨m, .toDID opts'.myDID opts'.theirDID⟩, none⟩

/-- Modelled from the spec: the wire serialization of a message
(`DIDCommMsgMap` JSON marshalling, not under the provided sources) strips
the internal metadata key — "metadata is never transmitted on the wire
(stripped before packing)". -/
def wireSerialize (m : Msg) : Msg := delKey m jsonMetadata

/-- The `thid` entry of the dispatched message's `~thread` decorator. -/
def threadEntry (m : Msg) (k : String) : Option Val :=
  match getKey m jsonThread with
  | some (.vmap t) => getKey t k
  | _ => none

end AriesMessenger

namespace DIDExchangeBDD

/-!
Embedding of `resolveDID` from
`test/bdd/pkg/didexchange/didexchange_sdk_steps.go`.  The resolver is
embedded as a function from the DID and the attempt number (1-based) to the
`(doc, err)` pair that `resolver.Resolve(did)` returns on that attempt; the
environment may change between attempts, which the attempt index captures.
The embedding additionally counts the number of `Resolve` calls and the
number of one-second sleeps performed.
-/

/-- A resolved DID document (`diddoc.Doc`); only its identity matters here. -/
structure Doc where
  id : String := ""
deriving DecidableEq

/-- Outcome of one `resolver.Resolve(did)` call: the returned document
pointer (possibly nil) and the returned error text (possibly nil). -/
abbrev ResolveRes := Option Doc × Option String

/-- Whether `pat` is a prefix of `s`, on character lists. -/
def leadsList : List Char → List Char → Bool
  | [], _ => true
  | _ :: _, [] => false
  | p :: ps, c :: cs => p = c && leadsList ps cs

/-- Whether `pat` occurs as a contiguous sublist of `s`. -/
def occursList (pat : List Char) : List Char → Bool
  | [] => leadsList pat []
  | c :: cs => leadsList pat (c :: cs) || occursList pat cs

/-- Whether string `pat` occurs inside `s` (Go `strings.Contains`). -/
def containsStr (s pat : String) : Bool := occursList pat.data s.data

/-- The retry condition of `resolveDID`: the attempt failed and the error
text contains "DID does not exist". -/
def retryable (r : ResolveRes) : Bool :=
  match r.2 with
  | none => false
  | some e => containsStr e "DID does not exist"

/-- The loop of `resolveDID`, starting at attempt `i` with `fuel` attempts
remaining.  Returns the final `(doc, err)` pair, the number of `Resolve`
calls made, and the number of sleeps performed.  On a decisive attempt
(success, or an error not containing "DID does not exist") it returns at
once; otherwise it sleeps one second and continues, returning the last
attempt's result when the attempts are exhausted. -/
def resolveFrom (resolver : Nat → ResolveRes) (i : Nat) : Nat → ResolveRes × Nat × Nat
  | 0 => ((none, none), 0, 0)
  | 1 =>
    let r := resolver i
    if retryable r then (r, 1, 1) else (r, 1, 0)
  | fuel + 2 =>
    let r := resolver i
    if retryable r then
      let rest := resolveFrom resolver (i + 1) (fuel + 1)
      (rest.1, rest.2.1 + 1, rest.2.2 + 1)
    else (r, 1, 0)

/-- `resolveDID` of `didexchange_sdk_steps.go`: attempts
`resolver.Resolve(did)` up to `maxRetry` times, 1-based. -/
def resolveDID (resolver : String → Nat → ResolveRes) (did : String)
    (maxRetry : Nat) : ResolveRes × Nat × Nat :=
  resolveFrom (resolver did) 1 maxRetry

end DIDExchangeBDD

namespace AriesMessenger

/-- One invocation of a Messenger send operation, for reasoning about
sequences of calls against a store. -/
inductive SendOp where
  | send (m : Msg) (myDID theirDID fresh : String)
  | sendToDestination (m : Msg) (sender destination fresh : String)
  | replyTo (msgID : String) (m : Msg) (fresh : String)
  | replyToNested (m : Msg) (opts : NestedReplyOpts) (fresh : String)

/-- The store after one send operation (on error the store is unchanged,
which the operation's result already reflects). -/
def runSendOp (store : Store) : SendOp → Store
  | .send m a b f => (Send m a b store f).store
  | .sendToDestination m s dst f => (SendToDestination m s dst store f).store
  | .replyTo mid m f => (ReplyTo mid m store f).store
  | .replyToNested m o f => (ReplyToNested m o store f).store

/-- The store after a sequence of send operations. -/
def runSendOps : Store → List SendOp → Store
  | store, [] => store
  | store, op :: ops => runSendOps (runSendOp store op) ops

end AriesMessenger

namespace AriesMessenger

theorem getKey_setKey_self {α : Type} (m : List (String × α)) (k : String) (v : α) :
    getKey (setKey m k v) k = some v := by
  induction m with
  | nil => simp [getKey, setKey]
  | cons h t ih =>
    obtain ⟨k', v'⟩ := h
    by_cases hk : k' = k
    · subst hk; simp [getKey, setKey]
    · simp [getKey, setKey, hk, ih]

theorem getKey_setKey_ne {α : Type} (m : List (String × α)) (k' k : String) (v : α)
    (h : k' ≠ k) : getKey (setKey m k' v) k = getKey m k := by
  induction m with
  | nil => simp [getKey, setKey, h]
  | cons hd t ih =>
    obtain ⟨k'', v''⟩ := hd
    by_cases hk : k'' = k'
    · subst hk; simp [getKey, setKey, h]
    · simp only [setKey, if_neg hk, getKey]
      by_cases hk2 : k'' = k
      · simp [hk2]
      · simp [hk2, ih]

theorem getKey_delKey_self {α : Type} (m : List (String × α)) (k : String) :
    getKey (delKey m k) k = none := by
  induction m with
  | nil => simp [getKey, delKey]
  | cons hd t ih =>
    obtain ⟨k', v'⟩ := hd
    by_cases hk : k' = k
    · simp [delKey, hk, ih]
    · simp [delKey, getKey, hk, ih]

theorem getKey_delKey_ne {α : Type} (m : List (String × α)) (k' k : String)
    (h : k' ≠ k) : getKey (delKey m k') k = getKey m k := by
  induction m with
  | nil => simp [getKey, delKey]
  | cons hd t ih =>
    obtain ⟨k'', v''⟩ := hd
    by_cases hk : k'' = k'
    · subst hk; simp [delKey, getKey, h, ih]
    · simp only [delKey, if_neg hk, getKey]
      by_cases hk2 : k'' = k
      · simp [hk2]
      · simp [hk2, ih]

theorem ID_setKey_ne (m : Msg) (k : String) (v : Val) (h : k ≠ jsonID) :
    ID (setKey m k v) = ID m := by
  unfold ID; rw [getKey_setKey_ne m k jsonID v h]

theorem Metadata_setKey_ne (m : Msg) (k : String) (v : Val) (h : k ≠ jsonMetadata) :
    Metadata (setKey m k v) = Metadata m := by
  unfold Metadata; rw [getKey_setKey_ne m k jsonMetadata v h]

theorem thidString_setKey_thread (m : Msg) (t : List (String × Val)) :
    thidString (setKey m jsonThread (.vmap t)) =
      (match getKey t jsonThreadID with
       | some (.str s) => s
       | _ => "") := by
  unfold thidString; rw [getKey_setKey_self]

theorem ParentThreadID_setKey_ne (m : Msg) (k : String) (v : Val) (h : k ≠ jsonThread) :
    ParentThreadID (setKey m k v) = ParentThreadID m := by
  unfold ParentThreadID; rw [getKey_setKey_ne m k jsonThread v h]

theorem thidString_setKey_ne (m : Msg) (k : String) (v : Val) (h : k ≠ jsonThread) :
    thidString (setKey m k v) = thidString m := by
  unfold thidString; rw [getKey_setKey_ne m k jsonThread v h]

theorem ID_fillIfMissing (m : Msg) (fresh : String) :
    ID (fillIfMissing m fresh) = if ID m = "" then fresh else ID m := by
  unfold fillIfMissing
  by_cases h : ID m = ""
  · simp only [h, if_pos rfl, if_true]
    unfold ID; rw [getKey_setKey_self]
  · simp [h]

theorem Metadata_fillIfMissing (m : Msg) (fresh : String) :
    Metadata (fillIfMissing m fresh) = Metadata m := by
  unfold fillIfMissing
  by_cases h : ID m = ""
  · simp only [h, if_true]
    exact Metadata_setKey_ne m jsonID (.str fresh) (by decide)
  · simp [h]

theorem ThreadID_of_ID_ne (m : Msg) (h : ID m ≠ "") :
    ThreadID m = .ok (if thidString m = "" then ID m else thidString m) := by
  unfold ThreadID
  by_cases ht : thidString m = ""
  · simp [ht, h]
  · simp [ht]

theorem saveMetadata_ok_of_ID_ne (m : Msg) (store : Store) (h : ID m ≠ "") :
    ∃ s', saveMetadata m store = .ok s' := by
  unfold saveMetadata
  match hmd : Metadata m with
  | [] => exact ⟨store, rfl⟩
  | md :: mds =>
    rw [ThreadID_of_ID_ne m h]
    exact ⟨_, rfl⟩

theorem saveMetadata_preserves (m : Msg) (store s' : Store) (k : String)
    (h : saveMetadata m store = .ok s') (hk : ∀ t, k ≠ metadataKey t) :
    getKey s' k = getKey store k := by
  unfold saveMetadata at h
  match hmd : Metadata m with
  | [] =>
    rw [hmd] at h
    cases h; rfl
  | md :: mds =>
    rw [hmd] at h
    match hth : ThreadID m with
    | .error e => rw [hth] at h; cases h
    | .ok thID =>
      rw [hth] at h
      cases h
      exact getKey_setKey_ne store (metadataKey thID) k _ (fun he => hk thID he.symm)

theorem saveMetadata_saves (m : Msg) (store s' : Store)
    (h : saveMetadata m store = .ok s') (hmd : Metadata m ≠ []) :
    ∃ thID, ThreadID m = .ok thID ∧
      getRecord s' (metadataKey thID) = .ok { metadata := Metadata m } := by
  unfold saveMetadata at h
  match hm : Metadata m with
  | [] => exact absurd hm hmd
  | md :: mds =>
    rw [hm] at h
    match hth : ThreadID m with
    | .error e => rw [hth] at h; cases h
    | .ok thID =>
      rw [hth] at h
      cases h
      refine ⟨thID, rfl, ?_⟩
      unfold getRecord saveRecord
      rw [getKey_setKey_self]

end AriesMessenger

namespace DIDExchangeBDD

theorem resolveFrom_calls_le (f : Nat → ResolveRes) :
    ∀ (fuel i : Nat), (resolveFrom f i fuel).2.1 ≤ fuel
  | 0, i => by simp [resolveFrom]
  | 1, i => by
    simp only [resolveFrom]
    split <;> simp
  | fuel + 2, i => by
    simp only [resolveFrom]
    split
    · have := resolveFrom_calls_le f (fuel + 1) (i + 1)
      simpa using by omega
    · simp

theorem resolveFrom_decisive (f : Nat → ResolveRes) :
    ∀ (fuel i k : Nat), i ≤ k → k < i + fuel →
      (∀ j, i ≤ j → j < k → retryable (f j) = true) → retryable (f k) = false →
      resolveFrom f i fuel = (f k, k - i + 1, k - i)
  | 0, i, k => by omega
  | 1, i, k => by
    intro h1 h2 h3 h4
    have hk : k = i := by omega
    subst hk
    simp [resolveFrom, h4]
  | fuel + 2, i, k => by
    intro h1 h2 h3 h4
    by_cases hik : k = i
    · subst hik
      simp [resolveFrom, h4]
    · have hklt : i < k := lt_of_le_of_ne h1 (Ne.symm hik)
      have hri : retryable (f i) = true := h3 i le_rfl hklt
      have ih := resolveFrom_decisive f (fuel + 1) (i + 1) k (by omega) (by omega)
        (fun j hj1 hj2 => h3 j (by omega) hj2) h4
      simp only [resolveFrom, hri, if_true]
      rw [ih]
      have e1 : k - (i + 1) + 1 + 1 = k - i + 1 := by omega
      have e2 : k - (i + 1) + 1 = k - i := by omega
      rw [e1, e2]

theorem resolveFrom_exhaust (f : Nat → ResolveRes) :
    ∀ (fuel i : Nat), 1 ≤ fuel →
      (∀ j, i ≤ j → j < i + fuel → retryable (f j) = true) →
      resolveFrom f i fuel = (f (i + fuel - 1), fuel, fuel)
  | 0, i => by omega
  | 1, i => by
    intro _ h
    have hri : retryable (f i) = true := h i le_rfl (by omega)
    simp [resolveFrom, hri]
  | fuel + 2, i => by
    intro _ h
    have hri : retryable (f i) = true := h i le_rfl (by omega)
    have ih := resolveFrom_exhaust f (fuel + 1) (i + 1) (by omega)
      (fun j hj1 hj2 => h j (by omega) (by omega))
    simp only [resolveFrom, hri, if_true]
    rw [ih]
    have e : i + 1 + (fuel + 1) - 1 = i + (fuel + 2) - 1 := by omega
    rw [e]

/-- C8: for every maxRetry ≥ 1, `resolveDID` calls the resolver's Resolve at
most maxRetry times; it returns immediately after the first attempt that
succeeds or fails with an error not containing "DID does not exist"
(sleeping once between consecutive attempts, hence k−1 sleeps before a
decisive k-th attempt); otherwise it returns the result of the last
attempt. -/
theorem resolveDID_retry_spec (resolver : String → Nat → ResolveRes) (did : String)
    (maxRetry : Nat) (hmax : 1 ≤ maxRetry) :
    (resolveDID resolver did maxRetry).2.1 ≤ maxRetry ∧
    (∀ k, 1 ≤ k → k ≤ maxRetry → retryable (resolver did k) = false →
      (∀ j, 1 ≤ j → j < k → retryable (resolver did j) = true) →
      resolveDID resolver did maxRetry = (resolver did k, k, k - 1)) ∧
    ((∀ j, 1 ≤ j → j ≤ maxRetry → retryable (resolver did j) = true) →
      resolveDID resolver did maxRetry = (resolver did maxRetry, maxRetry, maxRetry)) := by
  refine ⟨resolveFrom_calls_le (resolver did) maxRetry 1, ?_, ?_⟩
  · intro k hk1 hk2 hdec hbefore
    have h := resolveFrom_decisive (resolver did) maxRetry 1 k hk1 (by omega) hbefore hdec
    rw [resolveDID, h]
    have e : k - 1 + 1 = k := by omega
    rw [e]
  · intro hall
    have h := resolveFrom_exhaust (resolver did) maxRetry 1 hmax
      (fun j hj1 hj2 => hall j hj1 (by omega))
    rw [resolveDID, h]
    have e : 1 + maxRetry - 1 = maxRetry := by omega
    rw [e]

/-- Witness for C8: a resolver failing twice with "DID does not exist" and
succeeding on the third attempt is called exactly 3 times out of a budget
of 5, with 2 sleeps in between. -/
theorem resolveDID_retry_spec_witness :
    resolveDID
      (fun _ i => if i = 3 then (some ⟨"doc"⟩, none) else (none, some "DID does not exist"))
      "did:example:alice" 5 = ((some ⟨"doc"⟩, none), 3, 2) := by
  have h := (resolveDID_retry_spec
    (fun _ i => if i = 3 then (some ⟨"doc"⟩, none) else (none, some "DID does not exist"))
    "did:example:alice" 5 (by decide)).2.1 3 (by decide) (by decide) (by decide)
    (by intro j hj1 hj2; interval_cases j <;> decide)
  simpa using h

end DIDExchangeBDD

namespace AriesMessenger

theorem ID_delKey_ne (m : Msg) (k : String) (h : k ≠ jsonID) :
    ID (delKey m k) = ID m := by
  unfold ID; rw [getKey_delKey_ne m k jsonID h]

theorem ID_fill_ne (m : Msg) (fresh : String) (hf : fresh ≠ "") :
    ID (fillIfMissing m fresh) ≠ "" := by
  rw [ID_fillIfMissing]
  by_cases h : ID m = "" <;> simp [h, hf]

/-- C2: `Send` fills `@id` with the fresh UUID when it is absent, replaces
any existing `~thread` decorator, and dispatches the message to
`(myDID, theirDID)` with `~thread = {thid: msg.@id}` and no other keys
under `~thread`. -/
theorem Send_thread_spec (m : Msg) (myDID theirDID : String) (store : Store)
    (fresh : String) (hf : fresh ≠ "") :
    (Send m myDID theirDID store fresh).err = none ∧
    ∃ d, (Send m myDID theirDID store fresh).dispatched = some d ∧
      d.target = .toDID myDID theirDID ∧
      ID d.msg = (if ID m = "" then fresh else ID m) ∧
      getKey d.msg jsonThread = some (.vmap [(jsonThreadID, .str (ID d.msg))]) := by
  have hid : ID (fillIfMissing m fresh) ≠ "" := ID_fill_ne m fresh hf
  obtain ⟨s', hs⟩ := saveMetadata_ok_of_ID_ne (fillIfMissing m fresh) store hid
  have hidset : ID (setKey (fillIfMissing m fresh) jsonThread
      (.vmap [(jsonThreadID, .str (ID (fillIfMissing m fresh)))])) = ID (fillIfMissing m fresh) :=
    ID_setKey_ne _ jsonThread _ (by decide)
  have hS : Send m myDID theirDID store fresh =
      ⟨setKey (fillIfMissing m fresh) jsonThread
          (.vmap [(jsonThreadID, .str (ID (fillIfMissing m fresh)))]), s',
        some ⟨setKey (fillIfMissing m fresh) jsonThread
          (.vmap [(jsonThreadID, .str (ID (fillIfMissing m fresh)))]),
          .toDID myDID theirDID⟩, none⟩ := by
    simp only [Send]
    rw [hs]
  rw [hS]
  refine ⟨rfl, ⟨_, rfl, rfl, ?_, ?_⟩⟩
  · rw [hidset, ID_fillIfMissing]
  · rw [hidset, getKey_setKey_self]

/-- Witness for C2 at a concrete message without `@id`. -/
theorem Send_thread_spec_witness :
    (Send [] "did:a" "did:b" [] "uuid-1").err = none :=
  (Send_thread_spec [] "did:a" "did:b" [] "uuid-1" (by decide)).1

/-- C9: when the message has no `@id` and no record exists for `msgID`,
`ReplyTo` fails with the store-get error, dispatches nothing and writes
nothing, yet has already mutated the caller's message by assigning the
fresh `@id`. -/
theorem ReplyTo_mutation_on_missing_record (msgID : String) (m : Msg) (store : Store)
    (fresh : String) (hid : ID m = "") (hrec : getKey store msgID = none) :
    (ReplyTo msgID m store fresh).err = some .dataNotFound ∧
    (ReplyTo msgID m store fresh).dispatched = none ∧
    (ReplyTo msgID m store fresh).store = store ∧
    (ReplyTo msgID m store fresh).msg = setKey m jsonID (.str fresh) ∧
    ID (ReplyTo msgID m store fresh).msg = fresh := by
  have hget : getRecord store msgID = .error .dataNotFound := by
    unfold getRecord; rw [hrec]
  have hS : ReplyTo msgID m store fresh =
      ⟨setKey m jsonID (.str fresh), store, none, some .dataNotFound⟩ := by
    unfold ReplyTo fillIfMissing
    rw [if_pos hid, hget]
  rw [hS]
  refine ⟨rfl, rfl, rfl, rfl, ?_⟩
  unfold ID
  rw [getKey_setKey_self]

/-- Witness for C9: an id-less reply to an unknown message id on an empty
store. -/
theorem ReplyTo_mutation_on_missing_record_witness :
    (ReplyTo "m-1" [] [] "uuid-2").err = some .dataNotFound ∧
    ID (ReplyTo "m-1" [] [] "uuid-2").msg = "uuid-2" :=
  ⟨(ReplyTo_mutation_on_missing_record "m-1" [] [] "uuid-2" rfl rfl).1,
   (ReplyTo_mutation_on_missing_record "m-1" [] [] "uuid-2" rfl rfl).2.2.2.2⟩

/-- C10: with both `opts.messageID` and `opts.threadID` empty,
`ReplyToNested` reports no error for the missing reference: it dispatches
the message with `~thread = {pthid: ""}` to `opts.myDID` and
`opts.theirDID` as given. -/
theorem ReplyToNested_empty_reference (m : Msg) (opts : NestedReplyOpts) (store : Store)
    (fresh : String) (hf : fresh ≠ "") (hmid : opts.messageID = "")
    (hth : opts.threadID = "") :
    (ReplyToNested m opts store fresh).err = none ∧
    ∃ d, (ReplyToNested m opts store fresh).dispatched = some d ∧
      getKey d.msg jsonThread = some (.vmap [(jsonParentThreadID, .str "")]) ∧
      d.target = .toDID opts.myDID opts.theirDID := by
  have hid : ID (fillIfMissing m fresh) ≠ "" := ID_fill_ne m fresh hf
  obtain ⟨s', hs⟩ := saveMetadata_ok_of_ID_ne (fillIfMissing m fresh) store hid
  have hfill : fillNestedReplyOption opts s' = .ok opts := by
    unfold fillNestedReplyOption
    rw [if_neg (by simp [hth]), if_pos hmid]
  have hS : ReplyToNested m opts store fresh =
      ⟨setKey (fillIfMissing m fresh) jsonThread
          (.vmap [(jsonParentThreadID, .str opts.threadID)]), s',
        some ⟨setKey (fillIfMissing m fresh) jsonThread
          (.vmap [(jsonParentThreadID, .str opts.threadID)]),
          .toDID opts.myDID opts.theirDID⟩, none⟩ := by
    simp only [ReplyToNested, hs, hfill]
  rw [hS]
  refine ⟨rfl, ⟨_, rfl, ?_, rfl⟩⟩
  rw [hth, getKey_setKey_self]

/-- Witness for C10 at a concrete message and empty reference options. -/
theorem ReplyToNested_empty_reference_witness :
    (ReplyToNested [(jsonID, .str "m-9")]
      { myDID := "did:a", theirDID := "did:b" } [] "uuid-3").err = none :=
  (ReplyToNested_empty_reference [(jsonID, .str "m-9")]
    { myDID := "did:a", theirDID := "did:b" } [] "uuid-3" (by decide) rfl rfl).1

end AriesMessenger

namespace AriesMessenger

theorem replyThread_thid (rec : Record) :
    getKey (replyThread rec) jsonThreadID = some (.str rec.threadID) := by
  by_cases h : rec.parentThreadID = ""
  · simp [replyThread, h, getKey]
  · simp [replyThread, h, getKey, setKey, jsonThreadID, jsonParentThreadID]

theorem replyThread_pthid_pos (rec : Record) (h : rec.parentThreadID ≠ "") :
    getKey (replyThread rec) jsonParentThreadID = some (.str rec.parentThreadID) := by
  simp [replyThread, h, getKey, setKey, jsonThreadID, jsonParentThreadID]

theorem replyThread_pthid_neg (rec : Record) (h : rec.parentThreadID = "") :
    getKey (replyThread rec) jsonParentThreadID = none := by
  simp [replyThread, h, getKey, jsonThreadID, jsonParentThreadID]

/-- C1: for a stored record, a successful `ReplyTo` dispatches the message
with `~thread.thid` equal to the record's thread id, `~thread.pthid` equal
to the record's parent thread id exactly when that field is non-empty
(absent otherwise), to the record's DIDs; with no record, `ReplyTo` fails
without dispatching. -/
theorem ReplyTo_thread_spec (msgID : String) (m : Msg) (store : Store) (fresh : String)
    (hf : fresh ≠ "") :
    (∀ rec, getKey store msgID = some rec →
      (ReplyTo msgID m store fresh).err = none ∧
      ∃ d, (ReplyTo msgID m store fresh).dispatched = some d ∧
        threadEntry d.msg jsonThreadID = some (.str rec.threadID) ∧
        (rec.parentThreadID ≠ "" →
          threadEntry d.msg jsonParentThreadID = some (.str rec.parentThreadID)) ∧
        (rec.parentThreadID = "" → threadEntry d.msg jsonParentThreadID = none) ∧
        d.target = .toDID rec.myDID rec.theirDID) ∧
    (getKey store msgID = none →
      (ReplyTo msgID m store fresh).err = some .dataNotFound ∧
      (ReplyTo msgID m store fresh).dispatched = none) := by
  constructor
  · intro rec hrec
    have hget : getRecord store msgID = .ok rec := by unfold getRecord; rw [hrec]
    have hid2 : ID (setKey (fillIfMissing m fresh) jsonThread (.vmap (replyThread rec))) ≠ "" := by
      rw [ID_setKey_ne _ _ _ (by decide)]
      exact ID_fill_ne m fresh hf
    obtain ⟨s', hs⟩ := saveMetadata_ok_of_ID_ne _ store hid2
    have hS : ReplyTo msgID m store fresh =
        ⟨setKey (fillIfMissing m fresh) jsonThread (.vmap (replyThread rec)), s',
          some ⟨setKey (fillIfMissing m fresh) jsonThread (.vmap (replyThread rec)),
            .toDID rec.myDID rec.theirDID⟩, none⟩ := by
      simp only [ReplyTo, hget, hs]
    rw [hS]
    refine ⟨rfl, ⟨_, rfl, ?_, ?_, ?_, rfl⟩⟩
    · unfold threadEntry
      rw [getKey_setKey_self]
      exact replyThread_thid rec
    · intro hp
      unfold threadEntry
      rw [getKey_setKey_self]
      exact replyThread_pthid_pos rec hp
    · intro hp
      unfold threadEntry
      rw [getKey_setKey_self]
      exact replyThread_pthid_neg rec hp
  · intro hnone
    have hget : getRecord store msgID = .error .dataNotFound := by
      unfold getRecord; rw [hnone]
    have hS : ReplyTo msgID m store fresh =
        ⟨fillIfMissing m fresh, store, none, some .dataNotFound⟩ := by
      simp only [ReplyTo, hget]
    rw [hS]
    exact ⟨rfl, rfl⟩

/-- Witness for C1: replying to a stored record with parent thread id. -/
theorem ReplyTo_thread_spec_witness :
    (ReplyTo "m-1" []
      [("m-1", { myDID := "did:a", theirDID := "did:b",
                 threadID := "t-1", parentThreadID := "p-1" })] "uuid-4").err = none :=
  ((ReplyTo_thread_spec "m-1" []
      [("m-1", { myDID := "did:a", theirDID := "did:b",
                 threadID := "t-1", parentThreadID := "p-1" })] "uuid-4" (by decide)).1
    { myDID := "did:a", theirDID := "did:b",
      threadID := "t-1", parentThreadID := "p-1" } rfl).1

theorem ID_populateMetadata (thID : String) (m : Msg) (store : Store) :
    ID (populateMetadata thID m store) = ID m := by
  unfold populateMetadata
  split
  · rfl
  · split
    · rfl
    · exact ID_setKey_ne m jsonMetadata _ (by decide)

theorem ParentThreadID_populateMetadata (thID : String) (m : Msg) (store : Store) :
    ParentThreadID (populateMetadata thID m store) = ParentThreadID m := by
  unfold populateMetadata
  split
  · rfl
  · split
    · rfl
    · exact ParentThreadID_setKey_ne m jsonMetadata _ (by decide)

/-- C3: `HandleInbound` errors and stores nothing when `@id` is empty;
otherwise it stores, under key `msg.@id`, a record with the caller's DIDs,
`thread_id` equal to `~thread.thid` when that is a non-empty string and to
`msg.@id` otherwise, and the message's parent thread id, and that record is
retrievable by `msg.@id` afterwards. -/
theorem HandleInbound_spec (m : Msg) (myDID theirDID : String) (store : Store) :
    (ID m = "" →
      (HandleInbound m myDID theirDID store).err = some .idAbsent ∧
      (HandleInbound m myDID theirDID store).store = store) ∧
    (ID m ≠ "" →
      (HandleInbound m myDID theirDID store).err = none ∧
      getRecord (HandleInbound m myDID theirDID store).store (ID m) =
        .ok { myDID := myDID, theirDID := theirDID,
              threadID := if thidString m = "" then ID m else thidString m,
              parentThreadID := ParentThreadID m }) := by
  constructor
  · intro hid
    have hS : HandleInbound m myDID theirDID store = ⟨m, store, none, some .idAbsent⟩ := by
      unfold HandleInbound; rw [if_pos hid]
    rw [hS]
    exact ⟨rfl, rfl⟩
  · intro hid
    have hth := ThreadID_of_ID_ne m hid
    have hS : HandleInbound m myDID theirDID store =
        ⟨populateMetadata (if thidString m = "" then ID m else thidString m) m store,
          saveRecord store
            (ID (populateMetadata (if thidString m = "" then ID m else thidString m) m store))
            { parentThreadID :=
                ParentThreadID
                  (populateMetadata (if thidString m = "" then ID m else thidString m) m store),
              myDID := myDID, theirDID := theirDID,
              threadID := if thidString m = "" then ID m else thidString m },
          none, none⟩ := by
      unfold HandleInbound
      rw [if_neg hid, hth]
    rw [hS]
    refine ⟨rfl, ?_⟩
    rw [ID_populateMetadata, ParentThreadID_populateMetadata]
    unfold getRecord saveRecord
    rw [getKey_setKey_self]

/-- Witness for C3: an inbound message with `@id = "m-1"` and
`~thread.thid = "t-1"` is recorded and retrievable. -/
theorem HandleInbound_spec_witness :
    (HandleInbound [(jsonID, .str "m-1"), (jsonThread, .vmap [(jsonThreadID, .str "t-1")])]
      "did:a" "did:b" []).err = none :=
  ((HandleInbound_spec [(jsonID, .str "m-1"), (jsonThread, .vmap [(jsonThreadID, .str "t-1")])]
      "did:a" "did:b" []).2 (by decide)).1

end AriesMessenger

namespace AriesMessenger

theorem ne_metadataKey_of_short (k : String) (hlen : k.length < 9) :
    ∀ t, k ≠ metadataKey t := by
  intro t h
  have h2 := congrArg String.length h
  rw [metadataKey] at h2
  rw [String.length_append] at h2
  have h9 : "metadata_".length = 9 := rfl
  omega

theorem getKey_single_pthid_thid (v : Val) :
    getKey [(jsonParentThreadID, v)] jsonThreadID = none := by
  simp [getKey, jsonParentThreadID, jsonThreadID]

/-- Equation for `ReplyToNested` once the metadata save and the option
prefill have succeeded. -/
theorem ReplyToNested_eq_of_fill (m : Msg) (opts : NestedReplyOpts) (store : Store)
    (fresh : String) (s' : Store) (opts' : NestedReplyOpts)
    (hs : saveMetadata (fillIfMissing m fresh) store = .ok s')
    (hfill : fillNestedReplyOption opts s' = .ok opts') :
    ReplyToNested m opts store fresh =
      ⟨setKey (fillIfMissing m fresh) jsonThread
          (.vmap [(jsonParentThreadID, .str opts'.threadID)]), s',
        some ⟨setKey (fillIfMissing m fresh) jsonThread
          (.vmap [(jsonParentThreadID, .str opts'.threadID)]),
          .toDID opts'.myDID opts'.theirDID⟩, none⟩ := by
  simp only [ReplyToNested, hs, hfill]

/-- C4: a successful `ReplyToNested` dispatches with `~thread = {pthid: T}`
and no `thid`, where `T` is `opts.threadID` when provided and otherwise the
thread id of the record stored for `opts.messageID`; missing DIDs are
likewise filled from that record; an absent `@id` is replaced by the fresh
UUID. -/
theorem ReplyToNested_nested_spec (m : Msg) (opts : NestedReplyOpts) (store : Store)
    (fresh : String) (hf : fresh ≠ "") :
    (opts.threadID ≠ "" → opts.theirDID ≠ "" → opts.myDID ≠ "" →
      (ReplyToNested m opts store fresh).err = none ∧
      ∃ d, (ReplyToNested m opts store fresh).dispatched = some d ∧
        getKey d.msg jsonThread = some (.vmap [(jsonParentThreadID, .str opts.threadID)]) ∧
        threadEntry d.msg jsonThreadID = none ∧
        d.target = .toDID opts.myDID opts.theirDID ∧
        ID d.msg = (if ID m = "" then fresh else ID m)) ∧
    (∀ rec, ¬(opts.threadID ≠ "" ∧ opts.theirDID ≠ "" ∧ opts.myDID ≠ "") →
      opts.messageID ≠ "" →
      getKey store opts.messageID = some rec →
      (∀ t, opts.messageID ≠ metadataKey t) →
      (ReplyToNested m opts store fresh).err = none ∧
      ∃ d, (ReplyToNested m opts store fresh).dispatched = some d ∧
        getKey d.msg jsonThread = some (.vmap [(jsonParentThreadID,
          .str (if opts.threadID = "" then rec.threadID else opts.threadID))]) ∧
        threadEntry d.msg jsonThreadID = none ∧
        d.target = .toDID (if opts.myDID = "" then rec.myDID else opts.myDID)
                          (if opts.theirDID = "" then rec.theirDID else opts.theirDID) ∧
        ID d.msg = (if ID m = "" then fresh else ID m)) := by
  have hid : ID (fillIfMissing m fresh) ≠ "" := ID_fill_ne m fresh hf
  obtain ⟨s', hs⟩ := saveMetadata_ok_of_ID_ne (fillIfMissing m fresh) store hid
  constructor
  · intro h1 h2 h3
    have hfill : fillNestedReplyOption opts s' = .ok opts := by
      unfold fillNestedReplyOption
      rw [if_pos ⟨h1, h2, h3⟩]
    rw [ReplyToNested_eq_of_fill m opts store fresh s' opts hs hfill]
    refine ⟨rfl, ⟨_, rfl, ?_, ?_, rfl, ?_⟩⟩
    · rw [getKey_setKey_self]
    · unfold threadEntry
      rw [getKey_setKey_self]
      exact getKey_single_pthid_thid _
    · rw [ID_setKey_ne _ _ _ (by decide), ID_fillIfMissing]
  · intro rec hcond hmid hrec hkmd
    have hrec' : getRecord s' opts.messageID = .ok rec := by
      unfold getRecord
      rw [saveMetadata_preserves (fillIfMissing m fresh) store s' opts.messageID hs hkmd, hrec]
    have hfill : fillNestedReplyOption opts s' =
        .ok { opts with
              threadID := if opts.threadID = "" then rec.threadID else opts.threadID
              theirDID := if opts.theirDID = "" then rec.theirDID else opts.theirDID
              myDID := if opts.myDID = "" then rec.myDID else opts.myDID } := by
      unfold fillNestedReplyOption
      rw [if_neg hcond, if_neg hmid]
      simp only [hrec']
    rw [ReplyToNested_eq_of_fill m opts store fresh s' _ hs hfill]
    refine ⟨rfl, ⟨_, rfl, ?_, ?_, rfl, ?_⟩⟩
    · rw [getKey_setKey_self]
    · unfold threadEntry
      rw [getKey_setKey_self]
      exact getKey_single_pthid_thid _
    · rw [ID_setKey_ne _ _ _ (by decide), ID_fillIfMissing]

/-- Witness for C4: nested reply referencing a stored record fills the
parent thread id and DIDs from the record. -/
theorem ReplyToNested_nested_spec_witness :
    (ReplyToNested [] { messageID := "m-1" }
      [("m-1", { myDID := "did:a", theirDID := "did:b", threadID := "t-1" })]
      "uuid-6").err = none :=
  ((ReplyToNested_nested_spec [] { messageID := "m-1" }
      [("m-1", { myDID := "did:a", theirDID := "did:b", threadID := "t-1" })]
      "uuid-6" (by decide)).2
    { myDID := "did:a", theirDID := "did:b", threadID := "t-1" }
    (by simp) (by decide) rfl (ne_metadataKey_of_short "m-1" (by decide))).1

end AriesMessenger

namespace AriesMessenger

/-- C7: every message handed to the outbound dispatcher by `Send`,
`SendToDestination`, `ReplyTo` or `ReplyToNested` carries a non-empty
`@id`: an existing non-empty id is kept, an absent or empty one is replaced
by the fresh UUID before dispatch. -/
theorem outbound_id_filled (m : Msg) (store : Store)
    (fresh myDID theirDID sender destination msgID : String) (opts : NestedReplyOpts)
    (hf : fresh ≠ "") :
    (∀ d, (Send m myDID theirDID store fresh).dispatched = some d →
      ID d.msg = (if ID m = "" then fresh else ID m) ∧ ID d.msg ≠ "") ∧
    (∀ d, (SendToDestination m sender destination store fresh).dispatched = some d →
      ID d.msg = (if ID m = "" then fresh else ID m) ∧ ID d.msg ≠ "") ∧
    (∀ d, (ReplyTo msgID m store fresh).dispatched = some d →
      ID d.msg = (if ID m = "" then fresh else ID m) ∧ ID d.msg ≠ "") ∧
    (∀ d, (ReplyToNested m opts store fresh).dispatched = some d →
      ID d.msg = (if ID m = "" then fresh else ID m) ∧ ID d.msg ≠ "") := by
  have hne : (if ID m = "" then fresh else ID m) ≠ "" := by
    by_cases h : ID m = "" <;> simp [h, hf]
  refine ⟨?_, ?_, ?_, ?_⟩
  · intro d hd
    cases hs : saveMetadata (fillIfMissing m fresh) store with
    | error e =>
      simp only [Send, hs] at hd
      exact Option.noConfusion hd
    | ok s' =>
      simp only [Send, hs] at hd
      replace hd := Option.some.inj hd
      subst hd
      rw [ID_setKey_ne _ _ _ (by decide), ID_fillIfMissing]
      exact ⟨rfl, hne⟩
  · intro d hd
    cases hs : saveMetadata (fillIfMissing m fresh) store with
    | error e =>
      simp only [SendToDestination, hs] at hd
      exact Option.noConfusion hd
    | ok s' =>
      simp only [SendToDestination, hs] at hd
      replace hd := Option.some.inj hd
      subst hd
      rw [ID_delKey_ne _ _ (by decide), ID_fillIfMissing]
      exact ⟨rfl, hne⟩
  · intro d hd
    cases hget : getRecord store msgID with
    | error e =>
      simp only [ReplyTo, hget] at hd
      exact Option.noConfusion hd
    | ok rec =>
      cases hs : saveMetadata
          (setKey (fillIfMissing m fresh) jsonThread (.vmap (replyThread rec))) store with
      | error e =>
        simp only [ReplyTo, hget, hs] at hd
        exact Option.noConfusion hd
      | ok s' =>
        simp only [ReplyTo, hget, hs] at hd
        replace hd := Option.some.inj hd
        subst hd
        rw [ID_setKey_ne _ _ _ (by decide), ID_fillIfMissing]
        exact ⟨rfl, hne⟩
  · intro d hd
    cases hs : saveMetadata (fillIfMissing m fresh) store with
    | error e =>
      simp only [ReplyToNested, hs] at hd
      exact Option.noConfusion hd
    | ok s' =>
      cases hfill : fillNestedReplyOption opts s' with
      | error e =>
        simp only [ReplyToNested, hs, hfill] at hd
        exact Option.noConfusion hd
      | ok opts' =>
        simp only [ReplyToNested, hs, hfill] at hd
        replace hd := Option.some.inj hd
        subst hd
        rw [ID_setKey_ne _ _ _ (by decide), ID_fillIfMissing]
        exact ⟨rfl, hne⟩

/-- Witness for C7: the message `Send` dispatches for an id-less input
carries the fresh UUID as its `@id`. -/
theorem outbound_id_filled_witness :
    ID (([(jsonID, Val.str "uuid-5"),
          (jsonThread, Val.vmap [(jsonThreadID, Val.str "uuid-5")])] : Msg)) ≠ "" :=
  ((outbound_id_filled [] [] "uuid-5" "a" "b" "s" "dst" "m" {} (by decide)).1
    ⟨[(jsonID, .str "uuid-5"), (jsonThread, .vmap [(jsonThreadID, .str "uuid-5")])],
      .toDID "a" "b"⟩ rfl).2

end AriesMessenger

namespace AriesMessenger

/-- Counterexample to C5 as stated: the in-memory message map handed to the
outbound dispatcher by `Send` still contains the `_internal_metadata` key;
only the wire serialization strips it. -/
theorem metadata_still_on_dispatcher_input :
    ∃ d, (Send [(jsonID, .str "m-1"), (jsonMetadata, .vmap [("k", .str "v")])]
        "did:a" "did:b" [] "uuid-7").dispatched = some d ∧
      getKey d.msg jsonMetadata = some (.vmap [("k", .str "v")]) :=
  ⟨⟨[(jsonID, .str "m-1"), (jsonMetadata, .vmap [("k", .str "v")]),
      (jsonThread, .vmap [(jsonThreadID, .str "m-1")])], .toDID "did:a" "did:b"⟩,
    rfl, rfl⟩

theorem Metadata_thread_setKey (m : Msg) (fresh : String) (t : List (String × Val)) :
    Metadata (setKey (fillIfMissing m fresh) jsonThread (.vmap t)) = Metadata m := by
  rw [Metadata_setKey_ne _ _ _ (by decide), Metadata_fillIfMissing]

/-- C5 amended: every successful send operation on a message carrying
metadata persists that metadata to the store under a `metadata_<thid>` key,
and the wire serialization of any message — in particular of the map handed
to the dispatcher, which still carries the key in memory — contains no
`_internal_metadata` entry. -/
theorem metadata_persisted_and_wire_stripped (m : Msg) (store : Store)
    (fresh myDID theirDID sender destination msgID : String) (opts : NestedReplyOpts)
    (hmd : Metadata m ≠ []) :
    ((Send m myDID theirDID store fresh).err = none →
      ∃ t, getRecord (Send m myDID theirDID store fresh).store (metadataKey t) =
        .ok { metadata := Metadata m }) ∧
    ((SendToDestination m sender destination store fresh).err = none →
      ∃ t, getRecord (SendToDestination m sender destination store fresh).store
        (metadataKey t) = .ok { metadata := Metadata m }) ∧
    ((ReplyTo msgID m store fresh).err = none →
      ∃ t, getRecord (ReplyTo msgID m store fresh).store (metadataKey t) =
        .ok { metadata := Metadata m }) ∧
    ((ReplyToNested m opts store fresh).err = none →
      ∃ t, getRecord (ReplyToNested m opts store fresh).store (metadataKey t) =
        .ok { metadata := Metadata m }) ∧
    (∀ m' : Msg, getKey (wireSerialize m') jsonMetadata = none) := by
  refine ⟨?_, ?_, ?_, ?_, fun m' => getKey_delKey_self m' jsonMetadata⟩
  · intro herr
    cases hs : saveMetadata (fillIfMissing m fresh) store with
    | error e =>
      simp only [Send, hs] at herr
      exact Option.noConfusion herr
    | ok s' =>
      have heq : Metadata (fillIfMissing m fresh) = Metadata m := Metadata_fillIfMissing m fresh
      obtain ⟨t, _, hrec⟩ := saveMetadata_saves _ store s' hs (by rw [heq]; exact hmd)
      rw [heq] at hrec
      simp only [Send, hs]
      exact ⟨t, hrec⟩
  · intro herr
    cases hs : saveMetadata (fillIfMissing m fresh) store with
    | error e =>
      simp only [SendToDestination, hs] at herr
      exact Option.noConfusion herr
    | ok s' =>
      have heq : Metadata (fillIfMissing m fresh) = Metadata m := Metadata_fillIfMissing m fresh
      obtain ⟨t, _, hrec⟩ := saveMetadata_saves _ store s' hs (by rw [heq]; exact hmd)
      rw [heq] at hrec
      simp only [SendToDestination, hs]
      exact ⟨t, hrec⟩
  · intro herr
    cases hget : getRecord store msgID with
    | error e =>
      simp only [ReplyTo, hget] at herr
      exact Option.noConfusion herr
    | ok rec =>
      cases hs : saveMetadata
          (setKey (fillIfMissing m fresh) jsonThread (.vmap (replyThread rec))) store with
      | error e =>
        simp only [ReplyTo, hget, hs] at herr
        exact Option.noConfusion herr
      | ok s' =>
        have heq := Metadata_thread_setKey m fresh (replyThread rec)
        obtain ⟨t, _, hrec⟩ := saveMetadata_saves _ store s' hs (by rw [heq]; exact hmd)
        rw [heq] at hrec
        simp only [ReplyTo, hget, hs]
        exact ⟨t, hrec⟩
  · intro herr
    cases hs : saveMetadata (fillIfMissing m fresh) store with
    | error e =>
      simp only [ReplyToNested, hs] at herr
      exact Option.noConfusion herr
    | ok s' =>
      cases hfill : fillNestedReplyOption opts s' with
      | error e =>
        simp only [ReplyToNested, hs, hfill] at herr
        exact Option.noConfusion herr
      | ok opts' =>
        have heq : Metadata (fillIfMissing m fresh) = Metadata m := Metadata_fillIfMissing m fresh
        obtain ⟨t, _, hrec⟩ := saveMetadata_saves _ store s' hs (by rw [heq]; exact hmd)
        rw [heq] at hrec
        simp only [ReplyToNested, hs, hfill]
        exact ⟨t, hrec⟩

/-- Witness for the amended C5: a `Send` of a message carrying metadata
persists that metadata to the store. -/
theorem metadata_persisted_and_wire_stripped_witness :
    ∃ t, getRecord (Send [(jsonID, .str "m-1"), (jsonMetadata, .vmap [("k", .str "v")])]
        "did:a" "did:b" [] "uuid-8").store (metadataKey t) =
      .ok { metadata :=
        Metadata [(jsonID, .str "m-1"), (jsonMetadata, .vmap [("k", .str "v")])] } :=
  ((metadata_persisted_and_wire_stripped
      [(jsonID, .str "m-1"), (jsonMetadata, .vmap [("k", .str "v")])] []
      "uuid-8" "did:a" "did:b" "s" "dst" "m" {}
      (by rw [show Metadata [(jsonID, Val.str "m-1"),
          (jsonMetadata, Val.vmap [("k", Val.str "v")])] = [("k", Val.str "v")] from rfl]
          exact List.cons_ne_nil _ _)).1 rfl)

end AriesMessenger

namespace AriesMessenger

theorem runSendOp_preserves (store : Store) (op : SendOp) (k : String)
    (hk : ∀ t, k ≠ metadataKey t) : getKey (runSendOp store op) k = getKey store k := by
  cases op with
  | send m a b f =>
    cases hs : saveMetadata (fillIfMissing m f) store with
    | error e => simp only [runSendOp, Send, hs]
    | ok s' =>
      simp only [runSendOp, Send, hs]
      exact saveMetadata_preserves _ _ _ _ hs hk
  | sendToDestination m s dst f =>
    cases hs : saveMetadata (fillIfMissing m f) store with
    | error e => simp only [runSendOp, SendToDestination, hs]
    | ok s' =>
      simp only [runSendOp, SendToDestination, hs]
      exact saveMetadata_preserves _ _ _ _ hs hk
  | replyTo mid m f =>
    cases hget : getRecord store mid with
    | error e => simp only [runSendOp, ReplyTo, hget]
    | ok rec =>
      cases hs : saveMetadata
          (setKey (fillIfMissing m f) jsonThread (.vmap (replyThread rec))) store with
      | error e => simp only [runSendOp, ReplyTo, hget, hs]
      | ok s' =>
        simp only [runSendOp, ReplyTo, hget, hs]
        exact saveMetadata_preserves _ _ _ _ hs hk
  | replyToNested m o f =>
    cases hs : saveMetadata (fillIfMissing m f) store with
    | error e => simp only [runSendOp, ReplyToNested, hs]
    | ok s' =>
      cases hfill : fillNestedReplyOption o s' with
      | error e =>
        simp only [runSendOp, ReplyToNested, hs, hfill]
        exact saveMetadata_preserves _ _ _ _ hs hk
      | ok o' =>
        simp only [runSendOp, ReplyToNested, hs, hfill]
        exact saveMetadata_preserves _ _ _ _ hs hk

theorem runSendOps_preserves (ops : List SendOp) (store : Store) (k : String)
    (hk : ∀ t, k ≠ metadataKey t) :
    getKey (runSendOps store ops) k = getKey store k := by
  induction ops generalizing store with
  | nil => rfl
  | cons op ops ih =>
    rw [show runSendOps store (op :: ops) = runSendOps (runSendOp store op) ops from rfl]
    rw [ih (runSendOp store op), runSendOp_preserves store op k hk]

/-- Counterexample to C6 as stated: a second `HandleInbound` call whose
message bears the same `@id` overwrites the record written at creation
(`my_did` changes from "did:a" to "did:c"). -/
theorem record_overwritten_by_second_inbound :
    Except.map Record.myDID
        (getRecord (HandleInbound [(jsonID, .str "m-1")] "did:a" "did:b" []).store "m-1") =
      .ok "did:a" ∧
    Except.map Record.myDID
        (getRecord (HandleInbound [(jsonID, .str "m-1")] "did:c" "did:d"
            (HandleInbound [(jsonID, .str "m-1")] "did:a" "did:b" []).store).store "m-1") =
      .ok "did:c" ∧
    getRecord (HandleInbound [(jsonID, .str "m-1")] "did:c" "did:d"
        (HandleInbound [(jsonID, .str "m-1")] "did:a" "did:b" []).store).store "m-1" ≠
      getRecord (HandleInbound [(jsonID, .str "m-1")] "did:a" "did:b" []).store "m-1" := by
  refine ⟨rfl, rfl, ?_⟩
  intro h
  have h2 := congrArg (Except.map Record.myDID) h
  have e1 : Except.map Record.myDID
      (getRecord (HandleInbound [(jsonID, .str "m-1")] "did:c" "did:d"
          (HandleInbound [(jsonID, .str "m-1")] "did:a" "did:b" []).store).store "m-1") =
      .ok "did:c" := rfl
  have e2 : Except.map Record.myDID
      (getRecord (HandleInbound [(jsonID, .str "m-1")] "did:a" "did:b" []).store "m-1") =
      .ok "did:a" := rfl
  rw [e1, e2] at h2
  exact absurd (Except.ok.inj h2) (by decide)

/-- C6 amended: a record stored under a key that is not of the form
`metadata_<t>` — in particular a message record created by `HandleInbound`
for such an `@id` — is unchanged by any later sequence of `Send`,
`SendToDestination`, `ReplyTo` and `ReplyToNested` calls; only a later
`HandleInbound` bearing the same `@id`, or a send whose metadata key
collides, can overwrite it. -/
theorem record_unchanged_by_send_ops (store : Store) (ops : List SendOp) (k : String)
    (rec : Record) (hrec : getRecord store k = .ok rec) (hk : ∀ t, k ≠ metadataKey t) :
    getRecord (runSendOps store ops) k = .ok rec := by
  unfold getRecord at hrec ⊢
  rw [runSendOps_preserves ops store k hk]
  exact hrec

/-- Witness for the amended C6: a stored record survives a reply and a send
that both write metadata. -/
theorem record_unchanged_by_send_ops_witness :
    getRecord
      (runSendOps [("m-1", { myDID := "did:a", theirDID := "did:b", threadID := "t-1" })]
        [.replyTo "m-1" [(jsonMetadata, .vmap [("k", .str "v")])] "uuid-9",
         .send [(jsonID, .str "x-1"), (jsonMetadata, .vmap [("k2", .str "v2")])]
           "did:a" "did:b" "uuid-10"])
      "m-1" = .ok { myDID := "did:a", theirDID := "did:b", threadID := "t-1" } :=
  record_unchanged_by_send_ops
    [("m-1", { myDID := "did:a", theirDID := "did:b", threadID := "t-1" })]
    [.replyTo "m-1" [(jsonMetadata, .vmap [("k", .str "v")])] "uuid-9",
     .send [(jsonID, .str "x-1"), (jsonMetadata, .vmap [("k2", .str "v2")])]
       "did:a" "did:b" "uuid-10"]
    "m-1" { myDID := "did:a", theirDID := "did:b", threadID := "t-1" } rfl
    (ne_metadataKey_of_short "m-1" (by decide))

end AriesMessenger
